import Mathlib

/-!
Verification of the orca-blender repository: a shallow embedding of the
data-shaping logic of `src/package.py` (the packager) and the material
AOV wiring loop of `src/render.py` (the renderer driver), with theorems
settling the specification's claims about them.

Machine integers in the source are Python big integers; they are embedded
as `Nat` (all quantities involved are counts and indices that the scripts
keep non-negative). Fallible steps (raised exceptions, `exit(1)`,
`IndexError`, `ZeroDivisionError`) are embedded as `Except`.
-/

set_option autoImplicit false

namespace OrcaBlender

/-! ## Zero-padded decimal formatting

Embeds Python's format spec `{n:0{d}d}` for a non-negative `n`: the decimal
digits of `n`, left-padded with `'0'` up to width `d` (never truncated). -/

def zeroPad (width : Nat) (n : Nat) : String :=
  let s := toString n
  String.mk (List.replicate (width - s.length) '0') ++ s

/-! ## package.py : data model -/

/-- A resolution subdirectory of the input directory: its name and the
number of `*.exr` files it holds (`peak_frame_count`, package.py:38-39). -/
structure Subdir where
  name : String
  frames : Nat
  deriving Repr, DecidableEq

/-- The command-line arguments of package.py that the packaging logic
reads (package.py:10-36). -/
structure PackArgs where
  append : Bool
  overwrite : Bool
  testSequences : List Nat
  framesPerSequence : Nat
  frameIndexDigits : Nat
  sequenceIndexDigits : Nat
  deriving Repr, DecidableEq

/-- The ways the packager's main flow terminates abnormally. -/
inductive PackageError where
  /-- `exit(1)` when the output exists and neither `-a` nor `-w` is given
  (package.py:76-78). -/
  | outputExists
  /-- Python `IndexError` from `subdirs[0]` on an empty list (package.py:87). -/
  | indexError
  /-- `ValueError` naming the first subdirectory whose frame count differs
  from the first subdirectory's (package.py:90-91). -/
  | inconsistentFrames (name : String)
  /-- Python `ZeroDivisionError` from `n_frames // 0` (package.py:94). -/
  | zeroDivisionError
  /-- `ValueError` when no complete sequence can be assembled (package.py:95-96). -/
  | notEnoughFrames
  /-- h5py `ValueError` when `create_group` is given an existing name
  (package.py:111). -/
  | groupExists (name : String)
  deriving Repr, DecidableEq

/-- package.py:38-39: `peak_frame_count` counts the `*.exr` files of a
subdirectory. -/
def peak_frame_count (subdir : Subdir) : Nat :=
  subdir.frames

/-- package.py:75-82: decide the `existing_resolutions` list. `outputExists`
says whether the output file is already on disk; `archiveKeys` are its
top-level group names. Exits with an error when the file exists and
neither append nor overwrite was requested; reads the keys when the file
exists and overwrite was not requested; otherwise the list stays empty. -/
def existing_resolutions (outputExists : Bool) (args : PackArgs)
    (archiveKeys : List String) : Except PackageError (List String) :=
  if outputExists && !args.append && !args.overwrite then
    .error .outputExists
  else if outputExists && !args.overwrite then
    .ok archiveKeys
  else
    .ok []

/-- package.py:84: keep the input subdirectories whose names are not among
the existing resolutions. -/
def selectSubdirs (subdirs : List Subdir) (existing : List String) : List Subdir :=
  subdirs.filter (fun d => !existing.contains d.name)

/-- package.py:87-92: peek the first subdirectory's frame count (raising
`IndexError` on an empty list) and require every later subdirectory to
match it, raising a `ValueError` naming the first mismatch. -/
def checkFrameCounts (subdirs : List Subdir) : Except PackageError Nat :=
  match subdirs with
  | [] => .error .indexError
  | d0 :: rest =>
    let n := peak_frame_count d0
    match rest.find? (fun d => peak_frame_count d != n) with
    | some d => .error (.inconsistentFrames d.name)
    | none => .ok n

/-- package.py:94-96: `n_sequences = n_frames // frames_per_sequence`
(Python floor division, raising `ZeroDivisionError` on a zero divisor),
then abort unless at least one complete sequence exists. -/
def computeSequences (nFrames framesPerSequence : Nat) : Except PackageError Nat :=
  if framesPerSequence = 0 then
    .error .zeroDivisionError
  else
    let nSequences := nFrames / framesPerSequence
    if nSequences = 0 then .error .notEnoughFrames else .ok nSequences

/-- package.py:111: `f.create_group(subdir.name)` for each selected
subdirectory in order, over the groups already in the archive; h5py raises
when the name already exists. Returns the archive's final top-level group
list. -/
def createGroups (initial : List String) (names : List String) :
    Except PackageError (List String) :=
  match names with
  | [] => .ok initial
  | n :: rest =>
    if initial.contains n then .error (.groupExists n)
    else createGroups (initial ++ [n]) rest

/-- The observable outcome of a successful run of package.py's main flow:
which h5py open mode was used (package.py:101), which subdirectories were
packaged, how many sequences per resolution, and the archive's final
top-level group names. -/
structure RunOutput where
  openAppendMode : Bool
  packagedNames : List String
  nSequences : Nat
  finalRootGroups : List String
  deriving Repr, DecidableEq

/-- package.py:67-111 (main flow up to the per-resolution loop): read the
existing resolutions, select the subdirectories to package, validate the
frame counts, derive the sequence count, open the archive (`'a'` when the
append flag is set, else `'w'`; append keeps the prior groups of an
existing file, write truncates them) and create one top-level group per
packaged resolution. -/
def runPackager (outputExists : Bool) (archiveKeys : List String)
    (subdirs : List Subdir) (args : PackArgs) : Except PackageError RunOutput := do
  let existing ← existing_resolutions outputExists args archiveKeys
  let sel := selectSubdirs subdirs existing
  let nFrames ← checkFrameCounts sel
  let nSeq ← computeSequences nFrames args.framesPerSequence
  let initialGroups := if args.append && outputExists then archiveKeys else []
  let finalGroups ← createGroups initialGroups (sel.map (·.name))
  .ok { openAppendMode := args.append
        packagedNames := sel.map (·.name)
        nSequences := nSeq
        finalRootGroups := finalGroups }

/-! ## package.py : train/test sequence assignment (package.py:117-128) -/

/-- The two splits a sequence can be routed to. -/
inductive Split where
  | train
  | test
  deriving Repr, DecidableEq

/-- One sequence's routing: its index among all sequences, its split, and
the dense per-split counter used in its group name. -/
structure SeqAssign where
  seqIndex : Nat
  split : Split
  splitIndex : Nat
  deriving Repr, DecidableEq

/-- package.py:120-128: walk `k` consecutive sequence indices starting at
`s`, threading the `train_seq_index`/`test_seq_index` counters `t` and
`u`: a sequence goes to test exactly when its index is in
`args.test_sequences`, and the matching counter is incremented. -/
def assignAux (testSet : List Nat) : Nat → Nat → Nat → Nat → List SeqAssign
  | 0, _, _, _ => []
  | k + 1, s, t, u =>
    if testSet.contains s then
      ⟨s, .test, u⟩ :: assignAux testSet k (s + 1) t (u + 1)
    else
      ⟨s, .train, t⟩ :: assignAux testSet k (s + 1) (t + 1) u

/-- package.py:117-128: route sequence indices `0..n-1` to train/test with
both counters starting at zero. -/
def assignSequences (testSet : List Nat) (nSequences : Nat) : List SeqAssign :=
  assignAux testSet nSequences 0 0 0

/-- package.py:123,127: the name of a sequence group inside its split. -/
def seqGroupName (digits splitIndex : Nat) : String :=
  "seq-" ++ zeroPad digits splitIndex

/-! ## package.py : per-frame processing (package.py:130-156) -/

/-- package.py:132: the name of a frame's group inside its sequence group,
using the configured `--frame-index-digits` width. -/
def frameGroupName (digits frame : Nat) : String :=
  "frame-" ++ zeroPad digits frame

/-- package.py:133: the source image file resolved for in-sequence frame
`f` of sequence `s`: global 1-based index `f + P * s + 1` formatted with a
hard-coded four-digit width. -/
def frameFileName (P s f : Nat) : String :=
  "frame-" ++ zeroPad 4 (f + P * s + 1) ++ ".exr"

/-- Modelled from the spec's claim wording (not from the source): the
source image file name for `(s, f)` formatted with the configured
frame-index digit width, to be compared with `frameFileName`. -/
def frameFileNameSpec (digits P s f : Nat) : String :=
  "frame-" ++ zeroPad digits (f + P * s + 1) ++ ".exr"

/-- The `(sequence, frame)` pairs package.py:120-131 iterates for one
resolution, in order: sequences `0..n-1`, frames `0..P-1` within each. -/
def framePairs (nSequences P : Nat) : List (Nat × Nat) :=
  (List.range nSequences).flatMap (fun s => (List.range P).map (fun f => (s, f)))

/-- What package.py:131-156 does to one frame: which file it reads,
whether the dimension-mismatch warning was printed, and the width/height
its datasets are written with. -/
structure FrameRead where
  seq : Nat
  frame : Nat
  fileName : String
  warned : Bool
  width : Nat
  height : Nat
  deriving Repr, DecidableEq

/-- package.py:131-156 threaded over a list of `(sequence, frame)` pairs:
`dims g` gives the EXR header dimensions of the file with global 1-based
index `g`; the state is `frame_dimensions` (package.py:112,138-143),
`none` until the first frame fixes the canonical dimensions. A later frame
whose header differs only sets the warning flag; its datasets still use
the canonical dimensions, and processing continues. -/
def processFrames (dims : Nat → Nat × Nat) (P : Nat) :
    List (Nat × Nat) → Option (Nat × Nat) → List FrameRead
  | [], _ => []
  | (s, f) :: rest, st =>
    let hdr := dims (f + P * s + 1)
    match st with
    | none =>
      { seq := s, frame := f, fileName := frameFileName P s f,
        warned := false, width := hdr.1, height := hdr.2 }
        :: processFrames dims P rest (some hdr)
    | some canon =>
      { seq := s, frame := f, fileName := frameFileName P s f,
        warned := canon != hdr, width := canon.1, height := canon.2 }
        :: processFrames dims P rest (some canon)

/-! ## render.py : material AOV wiring (render.py:60-93) -/

/-- The roughness input socket of a shader node: whether something is
linked into it, the identifier of the link's source socket (meaningful
when linked), and its constant default value. `V` is the type of socket
values. -/
structure RoughnessSocket (V : Type) where
  isLinked : Bool
  sourceSocket : Nat
  defaultValue : V
  deriving Repr, DecidableEq

/-- A node of a material's node tree, as far as the wiring loop inspects
it: its type string and its roughness input socket. -/
structure ShaderNode (V : Type) where
  ntype : String
  roughness : RoughnessSocket V
  deriving Repr, DecidableEq

/-- A material of the loaded scene: whether it uses nodes, and its node
tree's nodes in iteration order. -/
structure Material (V : Type) where
  useNodes : Bool
  nodes : List (ShaderNode V)
  deriving Repr, DecidableEq

/-- How the loop of render.py:60-93 leaves one material's AOV Output
node's Value input. -/
inductive AOVWiring (V : Type) where
  /-- render.py:62-63: the material does not use nodes; the loop touches
  nothing, an AOV Output node is not even created. -/
  | untouched
  /-- render.py:84-85: an AOV Output node exists and carries the AOV name,
  but no Principled BSDF node was found, so its Value input is left alone. -/
  | aovOnly
  /-- render.py:89-91: the roughness socket is linked; the AOV node's
  Value input is wired from the same source socket. -/
  | linked (sourceSocket : Nat)
  /-- render.py:92-93: the roughness socket is not linked; the AOV node's
  Value input is set to the socket's constant default value. -/
  | constant (value : V)
  deriving Repr, DecidableEq

/-- render.py:60-93, body of the per-material loop: skip materials not
using nodes; find the first Principled BSDF node; if none, stop after
naming the AOV node; otherwise wire the AOV Value from the roughness
socket's link source when linked, else copy its constant default. -/
def setupMaterialAOV {V : Type} (m : Material V) : AOVWiring V :=
  if !m.useNodes then
    .untouched
  else
    match m.nodes.find? (fun n => n.ntype == "BSDF_PRINCIPLED") with
    | none => .aovOnly
    | some bsdf =>
      if bsdf.roughness.isLinked then
        .linked bsdf.roughness.sourceSocket
      else
        .constant bsdf.roughness.defaultValue

/-- render.py:60: the loop over every material of the loaded scene. -/
def setupAllMaterials {V : Type} (materials : List (Material V)) : List (AOVWiring V) :=
  materials.map setupMaterialAOV

end OrcaBlender

namespace OrcaBlender

/-! ## Helper lemmas -/

theorem createGroups_ok (names : List String) : ∀ initial res : List String,
    createGroups initial names = .ok res → res = initial ++ names := by
  induction names with
  | nil =>
    intro initial res h
    simp only [createGroups] at h
    cases h
    simp
  | cons n rest ih =>
    intro initial res h
    simp only [createGroups] at h
    split at h
    · cases h
    · have hres := ih (initial ++ [n]) res h
      simp [hres]

theorem selectSubdirs_nil (subdirs : List Subdir) : selectSubdirs subdirs [] = subdirs := by
  simp [selectSubdirs]

theorem checkFrameCounts_mismatch (d0 d : Subdir) (pre post : List Subdir)
    (hpre : ∀ x ∈ pre, x.frames = d0.frames) (hd : d.frames ≠ d0.frames) :
    checkFrameCounts (d0 :: (pre ++ d :: post)) = .error (.inconsistentFrames d.name) := by
  simp only [checkFrameCounts, peak_frame_count]
  have hfind : (pre ++ d :: post).find? (fun x => x.frames != d0.frames) = some d := by
    rw [List.find?_append]
    have hpre' : pre.find? (fun x => x.frames != d0.frames) = none := by
      rw [List.find?_eq_none]
      intro x hx
      simp [hpre x hx]
    rw [hpre', List.find?_cons_of_pos _ (by simp [hd])]
    rfl
  rw [hfind]

theorem assignAux_map_seqIndex (ts : List Nat) (k : Nat) : ∀ s t u,
    (assignAux ts k s t u).map (·.seqIndex) = List.range' s k := by
  induction k with
  | zero => intro s t u; simp [assignAux]
  | succ k ih =>
    intro s t u
    rw [List.range'_succ]
    by_cases h : ts.contains s
    · rw [assignAux, if_pos h]; simp [ih]
    · rw [assignAux, if_neg h]; simp [ih]

theorem assignAux_split_iff (ts : List Nat) (k : Nat) : ∀ s t u,
    ∀ e ∈ assignAux ts k s t u, (e.split = Split.test ↔ e.seqIndex ∈ ts) := by
  induction k with
  | zero => intro s t u e h; simp [assignAux] at h
  | succ k ih =>
    intro s t u e h
    by_cases hc : ts.contains s
    · rw [assignAux, if_pos hc] at h
      rcases List.mem_cons.mp h with rfl | h'
      · simpa using List.elem_iff.mp hc
      · exact ih (s + 1) t (u + 1) e h'
    · rw [assignAux, if_neg hc] at h
      rcases List.mem_cons.mp h with rfl | h'
      · constructor
        · intro hcontra; cases hcontra
        · intro hmem
          exact absurd (List.elem_iff.mpr hmem) (by simpa using hc)
      · exact ih (s + 1) (t + 1) u e h'

theorem assignAux_filter_test (ts : List Nat) (k : Nat) : ∀ s t u,
    ((assignAux ts k s t u).filter (fun e => e.split == Split.test)).map (·.splitIndex)
      = List.range' u (((List.range' s k).filter (fun i => ts.contains i)).length) := by
  induction k with
  | zero => intro s t u; simp [assignAux]
  | succ k ih =>
    intro s t u
    rw [List.range'_succ, List.filter_cons]
    by_cases hc : ts.contains s
    · rw [assignAux, if_pos hc]
      simp only [hc, if_pos]
      rw [List.filter_cons_of_pos (by simp), List.map_cons, ih]
      rw [List.length_cons, List.range'_succ]
    · rw [assignAux, if_neg hc]
      simp only [hc]
      rw [List.filter_cons_of_neg (by simp), ih]
      simp

theorem assignAux_filter_train (ts : List Nat) (k : Nat) : ∀ s t u,
    ((assignAux ts k s t u).filter (fun e => e.split == Split.train)).map (·.splitIndex)
      = List.range' t (((List.range' s k).filter (fun i => !ts.contains i)).length) := by
  induction k with
  | zero => intro s t u; simp [assignAux]
  | succ k ih =>
    intro s t u
    rw [List.range'_succ, List.filter_cons]
    by_cases hc : ts.contains s
    · rw [assignAux, if_pos hc]
      simp only [hc, Bool.not_true]
      rw [List.filter_cons_of_neg (by simp), ih]
      simp
    · rw [assignAux, if_neg hc]
      rw [List.filter_cons_of_pos (by simp), List.map_cons, ih]
      rw [if_pos (show (!ts.contains s) = true by simpa using hc)]
      rw [List.length_cons, List.range'_succ]

theorem processFrames_some (dims : Nat → Nat × Nat) (P : Nat) (pairs : List (Nat × Nat)) :
    ∀ c : Nat × Nat, processFrames dims P pairs (some c)
      = pairs.map (fun p =>
          { seq := p.1, frame := p.2, fileName := frameFileName P p.1 p.2,
            warned := c != dims (p.2 + P * p.1 + 1), width := c.1, height := c.2 }) := by
  induction pairs with
  | nil => intro c; rfl
  | cons p rest ih =>
    intro c
    cases p with
    | mk s f => simp only [processFrames, List.map_cons, ih]

theorem framePairs_cons (n P : Nat) (hn : 0 < n) (hP : 0 < P) :
    ∃ tail, framePairs n P = (0, 0) :: tail := by
  cases n with
  | zero => cases hn
  | succ n =>
    cases P with
    | zero => cases hP
    | succ P =>
      refine ⟨?_, ?_⟩
      · exact ((List.range (P + 1)).map (fun f => ((0 : Nat), f))).tail
          ++ ((List.range n).map Nat.succ).flatMap
              (fun s => (List.range (P + 1)).map (fun f => (s, f)))
      · rw [framePairs, List.range_succ_eq_map, List.flatMap_cons]
        rw [List.range_succ_eq_map, List.map_cons]
        rfl

theorem processFrames_none (dims : Nat → Nat × Nat) (P n : Nat) (hn : 0 < n) (hP : 0 < P) :
    processFrames dims P (framePairs n P) none
      = (framePairs n P).map (fun p =>
          { seq := p.1, frame := p.2, fileName := frameFileName P p.1 p.2,
            warned := dims 1 != dims (p.2 + P * p.1 + 1),
            width := (dims 1).1, height := (dims 1).2 }) := by
  obtain ⟨tail, htail⟩ := framePairs_cons n P hn hP
  rw [htail]
  show processFrames dims P ((0, 0) :: tail) none = _
  rw [List.map_cons]
  simp only [processFrames]
  rw [processFrames_some]
  norm_num

theorem framePairs_globalIndices (P : Nat) : ∀ n : Nat,
    (framePairs n P).map (fun p => p.2 + P * p.1 + 1) = List.range' 1 (n * P) := by
  intro n
  induction n with
  | zero => simp [framePairs]
  | succ n ih =>
    rw [framePairs, List.range_succ, List.flatMap_append, List.map_append]
    rw [show (List.range n).flatMap (fun s => (List.range P).map (fun f => (s, f)))
          = framePairs n P from rfl, ih]
    rw [List.flatMap_cons, List.flatMap_nil, List.append_nil, List.map_map]
    have hmap : ((List.range P).map ((fun p : Nat × Nat => p.2 + P * p.1 + 1) ∘ fun f => (n, f)))
        = List.range' (1 + n * P) P := by
      rw [List.range'_eq_map_range]
      apply List.map_congr_left
      intro f _
      simp [Function.comp]
      ring
    rw [hmap, List.range'_append_1]
    congr 1
    ring

theorem framePairs_length (P n : Nat) : (framePairs n P).length = n * P := by
  have h := framePairs_globalIndices P n
  have hlen := congrArg List.length h
  simpa using hlen

theorem bind_ok_pack {α β : Type} (a : α) (f : α → Except PackageError β) :
    (Except.ok a >>= f) = f a := rfl

theorem existing_resolutions_overwrite (args : PackArgs)
    (outputExists : Bool) (archiveKeys : List String) (hw : args.overwrite = true) :
    existing_resolutions outputExists args archiveKeys = .ok [] := by
  simp [existing_resolutions, hw]

theorem existing_resolutions_append (args : PackArgs) (archiveKeys : List String)
    (ha : args.append = true) (hw : args.overwrite = false) :
    existing_resolutions true args archiveKeys = .ok archiveKeys := by
  simp [existing_resolutions, ha, hw]

theorem existing_resolutions_fresh (args : PackArgs) (archiveKeys : List String) :
    existing_resolutions false args archiveKeys = .ok [] := by
  simp [existing_resolutions]

/-! ## Claims -/

/-- C1, counterexample: the claim says the source image file for
`(s, f) = (0, 0)` is named with global index 1 formatted with the
configured `--frame-index-digits` width; with the width configured to 3
(its default) that would be `frame-001.exr`, but package.py:133 resolves
`frame-0001.exr`: the file name's digit width is hard-coded to 4. -/
theorem frameFileName_ignores_configured_digits :
    frameFileName 100 0 0 = "frame-0001.exr" ∧
    frameFileNameSpec 3 100 0 0 = "frame-001.exr" ∧
    frameFileName 100 0 0 ≠ frameFileNameSpec 3 100 0 0 :=
  ⟨rfl, rfl, by decide⟩

/-- C1, amended: for every sequence index `s` and in-sequence frame index
`f`, the packager resolves the source image file for `(s, f)` to the file
named with global 1-based index `f + frames_per_sequence * s + 1`,
formatted with a fixed four-digit width regardless of the configured
`--frame-index-digits` setting (which instead formats the frame group
names inside the archive). -/
theorem frameFiles_use_fixed_four_digit_width (dims : Nat → Nat × Nat) (P : Nat)
    (pairs : List (Nat × Nat)) (st : Option (Nat × Nat)) :
    (processFrames dims P pairs st).map (·.fileName)
      = pairs.map (fun p => frameFileNameSpec 4 P p.1 p.2) := by
  induction pairs generalizing st with
  | nil => cases st <;> rfl
  | cons p rest ih =>
    cases p with
    | mk s f =>
      cases st with
      | none => simp [processFrames, ih, frameFileName, frameFileNameSpec]
      | some c => simp [processFrames, ih, frameFileName, frameFileNameSpec]

/-- C2, counterexample: a material whose `use_nodes` is false is skipped
by the loop of render.py:60-93 (render.py:62-63): its roughness is neither
wired from a link nor exposed as a constant, so the claim's "for every
material in the loaded scene" fails. The material below has an unlinked
roughness socket with constant default 5, for which the claim predicts
the AOV Value input is set to that constant. -/
theorem material_without_nodes_left_unwired :
    setupMaterialAOV (V := Nat) ⟨false, [⟨"BSDF_PRINCIPLED", ⟨false, 0, 5⟩⟩]⟩
        = AOVWiring.untouched ∧
    (AOVWiring.untouched : AOVWiring Nat) ≠ AOVWiring.constant 5 :=
  ⟨rfl, by decide⟩

/-- C2, amended: for every material that uses nodes and whose node tree
contains a Principled BSDF node, the renderer driver exposes that
material's roughness as the auxiliary output channel: if the (first such)
node's roughness input socket is connected, the AOV Output node's Value
input is wired from the same source socket; otherwise it is set to the
socket's constant default value. Materials not using nodes, or without a
Principled BSDF node, are skipped. -/
theorem setupMaterialAOV_principled {V : Type} (m : Material V) (bsdf : ShaderNode V)
    (h1 : m.useNodes = true)
    (h2 : m.nodes.find? (fun n => n.ntype == "BSDF_PRINCIPLED") = some bsdf) :
    setupMaterialAOV m
      = if bsdf.roughness.isLinked then AOVWiring.linked bsdf.roughness.sourceSocket
        else AOVWiring.constant bsdf.roughness.defaultValue := by
  simp [setupMaterialAOV, h1, h2]

/-- Witness for the amended C2 theorem: a node-based material with a
Principled BSDF whose roughness socket is unlinked with default 7 gets
the constant wiring. -/
theorem setupMaterialAOV_principled_witness :
    setupMaterialAOV (V := Nat) ⟨true, [⟨"BSDF_PRINCIPLED", ⟨false, 3, 7⟩⟩]⟩
      = AOVWiring.constant 7 := by
  have h := setupMaterialAOV_principled (V := Nat)
    ⟨true, [⟨"BSDF_PRINCIPLED", ⟨false, 3, 7⟩⟩]⟩ ⟨"BSDF_PRINCIPLED", ⟨false, 3, 7⟩⟩
    rfl rfl
  simpa using h

/-- C3, counterexample: with both the overwrite and the append flags
given, package.py:101 opens the archive in `'a'` mode (`'a' if args.append
else 'w'`), so the pre-existing resolution group `A` survives the run:
the claim's "for every combination of the other flags" fails. -/
theorem overwrite_with_append_keeps_prior_groups :
    runPackager true ["A"] [⟨"B", 100⟩]
        { append := true, overwrite := true, testSequences := [0],
          framesPerSequence := 100, frameIndexDigits := 3, sequenceIndexDigits := 3 }
      = .ok { openAppendMode := true, packagedNames := ["B"],
              nSequences := 1, finalRootGroups := ["A", "B"] } ∧
    "A" ∈ ({ openAppendMode := true, packagedNames := ["B"], nSequences := 1,
             finalRootGroups := ["A", "B"] } : RunOutput).finalRootGroups :=
  ⟨rfl, by decide⟩

/-- C3, amended: whenever the overwrite flag is given and the append flag
is not, the packager replaces the full destination archive regardless of
its prior contents: a successful run leaves exactly the newly packaged
resolution groups (one per input subdirectory) as the archive's top-level
groups. When append is also given, the archive is instead opened in
append mode and prior contents survive. -/
theorem overwrite_without_append_replaces_archive (outputExists : Bool)
    (archiveKeys : List String) (subdirs : List Subdir) (args : PackArgs)
    (out : RunOutput) (hw : args.overwrite = true) (ha : args.append = false)
    (h : runPackager outputExists archiveKeys subdirs args = .ok out) :
    out.packagedNames = subdirs.map (·.name) ∧
    out.finalRootGroups = subdirs.map (·.name) := by
  rw [runPackager, existing_resolutions_overwrite args outputExists archiveKeys hw,
    bind_ok_pack, selectSubdirs_nil] at h
  simp only [] at h
  cases hc : checkFrameCounts subdirs with
  | error e => rw [hc] at h; cases h
  | ok nFrames =>
    rw [hc, bind_ok_pack] at h
    cases hs : computeSequences nFrames args.framesPerSequence with
    | error e => rw [hs] at h; cases h
    | ok nSeq =>
      rw [hs, bind_ok_pack, ha] at h
      simp only [Bool.false_and, Bool.false_eq_true, if_neg, ite_false] at h
      cases hg : createGroups [] (subdirs.map (·.name)) with
      | error e => rw [hg] at h; cases h
      | ok groups =>
        rw [hg, bind_ok_pack] at h
        cases h
        refine ⟨rfl, ?_⟩
        have := createGroups_ok (subdirs.map (·.name)) [] groups hg
        simpa using this

/-- Witness for the amended C3 theorem: overwriting an archive that held
resolution `A` with an input directory holding only `B` leaves exactly
the group `B`. -/
theorem overwrite_without_append_replaces_archive_witness :
    ({ openAppendMode := false, packagedNames := ["B"], nSequences := 1,
       finalRootGroups := ["B"] } : RunOutput).packagedNames
        = ([⟨"B", 100⟩] : List Subdir).map (·.name) ∧
    ({ openAppendMode := false, packagedNames := ["B"], nSequences := 1,
       finalRootGroups := ["B"] } : RunOutput).finalRootGroups
        = ([⟨"B", 100⟩] : List Subdir).map (·.name) :=
  overwrite_without_append_replaces_archive true ["A"] [⟨"B", 100⟩]
    { append := false, overwrite := true, testSequences := [0],
      framesPerSequence := 100, frameIndexDigits := 3, sequenceIndexDigits := 3 }
    _ rfl rfl rfl

/-- C4: in append mode (append given, overwrite not given) against an
existing archive, the packager processes exactly the input
subdirectories whose names are not already top-level groups of the
archive. -/
theorem append_mode_processes_only_missing (archiveKeys : List String)
    (subdirs : List Subdir) (args : PackArgs) (out : RunOutput)
    (ha : args.append = true) (hw : args.overwrite = false)
    (h : runPackager true archiveKeys subdirs args = .ok out) :
    out.packagedNames
      = (subdirs.filter (fun d => !archiveKeys.contains d.name)).map (·.name) := by
  rw [runPackager, existing_resolutions_append args archiveKeys ha hw, bind_ok_pack] at h
  simp only [] at h
  cases hc : checkFrameCounts (selectSubdirs subdirs archiveKeys) with
  | error e => rw [hc] at h; cases h
  | ok nFrames =>
    rw [hc, bind_ok_pack] at h
    cases hs : computeSequences nFrames args.framesPerSequence with
    | error e => rw [hs] at h; cases h
    | ok nSeq =>
      rw [hs, bind_ok_pack] at h
      cases hg : createGroups (if args.append && true then archiveKeys else [])
          ((selectSubdirs subdirs archiveKeys).map (·.name)) with
      | error e => rw [hg] at h; cases h
      | ok groups =>
        rw [hg, bind_ok_pack] at h
        cases h
        rfl

/-- Witness for the C4 theorem: an archive containing resolutions
`{A, B}` and an input directory containing `{A, B, C}`: only `C` is
packaged. -/
theorem append_mode_processes_only_missing_witness :
    ({ openAppendMode := true, packagedNames := ["C"], nSequences := 1,
       finalRootGroups := ["A", "B", "C"] } : RunOutput).packagedNames
      = (([⟨"A", 100⟩, ⟨"B", 100⟩, ⟨"C", 100⟩] : List Subdir).filter
          (fun d => !(["A", "B"].contains d.name))).map (·.name) :=
  append_mode_processes_only_missing ["A", "B"]
    [⟨"A", 100⟩, ⟨"B", 100⟩, ⟨"C", 100⟩]
    { append := true, overwrite := false, testSequences := [0],
      framesPerSequence := 100, frameIndexDigits := 3, sequenceIndexDigits := 3 }
    _ rfl rfl rfl

/-- C5: for every frame count `F` and frames-per-sequence `P ≥ 1` the
packager assembles `floor(F / P)` sequences per resolution, aborts with
the not-enough-frames error when that is zero, and the global 1-based
frame indices it reads are exactly `1 .. P * floor(F / P)`: frames beyond
the last complete sequence are never read. -/
theorem sequence_count_and_dropped_frames (F P : Nat) (hP : 0 < P) :
    (0 < F / P → computeSequences F P = .ok (F / P)) ∧
    (F / P = 0 → computeSequences F P = .error .notEnoughFrames) ∧
    (framePairs (F / P) P).map (fun p => p.2 + P * p.1 + 1)
      = List.range' 1 (F / P * P) ∧
    F / P * P ≤ F := by
  refine ⟨?_, ?_, framePairs_globalIndices P (F / P), Nat.div_mul_le_self F P⟩
  · intro h
    simp [computeSequences, Nat.pos_iff_ne_zero.mp hP, Nat.pos_iff_ne_zero.mp h]
  · intro h
    simp [computeSequences, Nat.pos_iff_ne_zero.mp hP, h]

/-- Witness for the C5 theorem at `F = 10`, `P = 3`: three sequences,
reading exactly global frames 1..9; frame 10 is dropped. -/
theorem sequence_count_and_dropped_frames_witness :
    computeSequences 10 3 = .ok 3 ∧
    (framePairs 3 3).map (fun p => p.2 + 3 * p.1 + 1) = List.range' 1 9 ∧
    9 ≤ 10 := by
  have h := sequence_count_and_dropped_frames 10 3 (by decide)
  exact ⟨h.1 (by decide), h.2.2.1, by decide⟩

/-- C6: when two resolution subdirectories being packaged have different
frame counts, the packager aborts (no output is produced) raising an
error naming the first subdirectory whose count differs from the first
subdirectory's count. -/
theorem inconsistent_frame_counts_abort (archiveKeys : List String) (args : PackArgs)
    (d0 d : Subdir) (pre post : List Subdir)
    (hpre : ∀ x ∈ pre, x.frames = d0.frames) (hd : d.frames ≠ d0.frames) :
    runPackager false archiveKeys (d0 :: (pre ++ d :: post)) args
      = .error (.inconsistentFrames d.name) := by
  rw [runPackager, existing_resolutions_fresh args archiveKeys, bind_ok_pack,
    selectSubdirs_nil]
  simp only []
  rw [checkFrameCounts_mismatch d0 d pre post hpre hd]
  rfl

/-- Witness for the C6 theorem: frame counts 97 for resolution `X` and
100 for resolution `Y` raise the validation failure naming `Y`. -/
theorem inconsistent_frame_counts_abort_witness :
    runPackager false [] [⟨"X", 97⟩, ⟨"Y", 100⟩]
        { append := false, overwrite := false, testSequences := [0],
          framesPerSequence := 100, frameIndexDigits := 3, sequenceIndexDigits := 3 }
      = .error (.inconsistentFrames "Y") :=
  inconsistent_frame_counts_abort [] _ ⟨"X", 97⟩ ⟨"Y", 100⟩ [] []
    (by intro x hx; cases hx) (by decide)

/-- C7: within each resolution, the sequence indices walked are exactly
`0..n-1` in order (each assigned once), a sequence is routed to test
exactly when its index is in the caller-supplied test set (else to
train), and the per-split sequence numbers are each a dense zero-based
counter with no gaps, incremented in sequence-index order. -/
theorem train_test_routing_dense (ts : List Nat) (n : Nat) :
    (assignSequences ts n).map (·.seqIndex) = List.range n ∧
    (∀ e ∈ assignSequences ts n, (e.split = Split.test ↔ e.seqIndex ∈ ts)) ∧
    ((assignSequences ts n).filter (fun e => e.split == Split.test)).map (·.splitIndex)
      = List.range (((List.range n).filter (fun i => ts.contains i)).length) ∧
    ((assignSequences ts n).filter (fun e => e.split == Split.train)).map (·.splitIndex)
      = List.range (((List.range n).filter (fun i => !ts.contains i)).length) := by
  refine ⟨?_, ?_, ?_, ?_⟩
  · rw [assignSequences, assignAux_map_seqIndex, List.range_eq_range']
  · exact fun e he => assignAux_split_iff ts n 0 0 0 e he
  · rw [assignSequences, assignAux_filter_test]
    simp only [List.range_eq_range']
  · rw [assignSequences, assignAux_filter_train]
    simp only [List.range_eq_range']

/-- Witness for the C7 theorem: with test set `{1}` over three sequences,
the entry for sequence 1 sits in the test split. -/
theorem train_test_routing_dense_witness :
    ((⟨1, Split.test, 0⟩ : SeqAssign).split = Split.test
      ↔ (⟨1, Split.test, 0⟩ : SeqAssign).seqIndex ∈ [1]) :=
  (train_test_routing_dense [1] 3).2.1 ⟨1, Split.test, 0⟩ (by decide)

/-- C8: for each resolution the first frame processed (global index 1)
establishes the canonical width/height; every frame of the resolution is
processed (no abort: the output has one entry per frame), every frame's
datasets are written with the canonical dimensions, and a frame carries
the logged warning exactly when its own header dimensions differ from the
canonical ones. -/
theorem dimension_mismatch_warns_not_aborts (dims : Nat → Nat × Nat) (P n : Nat)
    (hP : 0 < P) (hn : 0 < n) :
    (processFrames dims P (framePairs n P) none).length = n * P ∧
    (∀ e ∈ processFrames dims P (framePairs n P) none,
      e.width = (dims 1).1 ∧ e.height = (dims 1).2 ∧
      e.warned = (dims 1 != dims (e.frame + P * e.seq + 1))) := by
  rw [processFrames_none dims P n hn hP]
  constructor
  · rw [List.length_map, framePairs_length]
  · intro e he
    obtain ⟨p, hp, rfl⟩ := List.mem_map.mp he
    exact ⟨rfl, rfl, rfl⟩

/-- Witness for the C8 theorem: one sequence of two frames whose second
frame has different header dimensions: both frames are processed with the
first frame's dimensions, the second only warns. -/
theorem dimension_mismatch_warns_not_aborts_witness :
    (processFrames (fun g => if g = 2 then (5, 5) else (4, 3)) 2
        (framePairs 1 2) none).length = 1 * 2 ∧
    (∀ e ∈ processFrames (fun g => if g = 2 then (5, 5) else (4, 3)) 2
        (framePairs 1 2) none,
      e.width = ((fun g : Nat => if g = 2 then ((5 : Nat), (5 : Nat)) else (4, 3)) 1).1 ∧
      e.height = ((fun g : Nat => if g = 2 then ((5 : Nat), (5 : Nat)) else (4, 3)) 1).2 ∧
      e.warned = ((fun g : Nat => if g = 2 then ((5 : Nat), (5 : Nat)) else (4, 3)) 1
        != (fun g : Nat => if g = 2 then ((5 : Nat), (5 : Nat)) else (4, 3))
            (e.frame + 2 * e.seq + 1))) :=
  dimension_mismatch_warns_not_aborts (fun g => if g = 2 then (5, 5) else (4, 3)) 2 1
    (by decide) (by decide)

/-- C9: invoking the packager with frames-per-sequence 0 fails with the
division-by-zero error at the sequence-count computation (package.py:94),
before the advertised not-enough-frames validation error can be reached:
the guard at package.py:95 only catches a non-positive quotient, not a
zero divisor. -/
theorem zero_frames_per_sequence_division_error :
    (∀ F : Nat, computeSequences F 0 = .error .zeroDivisionError) ∧
    runPackager false [] [⟨"A", 50⟩]
        { append := false, overwrite := false, testSequences := [0],
          framesPerSequence := 0, frameIndexDigits := 3, sequenceIndexDigits := 3 }
      = .error .zeroDivisionError :=
  ⟨fun _ => rfl, rfl⟩

/-- C10: if, after filtering out the resolutions already present in the
archive, the list of subdirectories to process is empty, the packager
crashes with the out-of-bounds index error from peeking the first
subdirectory's frame count (package.py:87) instead of exiting cleanly. -/
theorem empty_selection_index_error (archiveKeys : List String)
    (subdirs : List Subdir) (args : PackArgs)
    (ha : args.append = true) (hw : args.overwrite = false)
    (hsel : selectSubdirs subdirs archiveKeys = []) :
    runPackager true archiveKeys subdirs args = .error .indexError := by
  rw [runPackager, existing_resolutions_append args archiveKeys ha hw, bind_ok_pack,
    hsel]
  rfl

/-- Witness for the C10 theorem: append mode when the single input
resolution `A` is already in the archive crashes with the index error. -/
theorem empty_selection_index_error_witness :
    runPackager true ["A"] [⟨"A", 100⟩]
        { append := true, overwrite := false, testSequences := [0],
          framesPerSequence := 100, frameIndexDigits := 3, sequenceIndexDigits := 3 }
      = .error .indexError :=
  empty_selection_index_error ["A"] [⟨"A", 100⟩] _ rfl rfl rfl

end OrcaBlender
